import Mathlib

/-!
Verification of the Omi MCP tool façade (`src/index.ts`).

The file embeds, in Lean, the four MCP tool registrations of the server
variant in `src/index.ts` (tools `read_omi_conversations`, `read_omi_memories`,
`create_omi_conversation`, `create_omi_memories`): their zod parameter
schemas, the query-string / JSON-body construction performed by the handlers,
and the mapping of HTTP responses to tool results or errors.

Modelling conventions:
- JSON / JS values are the inductive `Json`; numbers are rationals.
- zod validation is embedded per tool as a function from the raw argument
  object (a field list) to `Except String Args`; error message strings are
  abbreviated stand-ins for zod issue reports, only their presence matters.
- The HTTP layer is a record `HttpResponse` carrying the status, status text,
  and the outcomes of `response.text()` and `response.json()` (each may fail).
- `JSON.stringify` at the very end of a handler is abstracted: handlers return
  the `Json` value that the code stringifies.
-/

namespace OmiMcp

/-- JSON / JavaScript values crossing the façade boundary. -/
inductive Json where
  | null : Json
  | bool : Bool → Json
  | num : Rat → Json
  | str : String → Json
  | arr : List Json → Json
  | obj : List (String × Json) → Json

/-- First-match lookup of a key in an object's field list
(JS objects hold at most one entry per key). -/
def lookupField : List (String × Json) → String → Option Json
  | [], _ => none
  | (k, v) :: rest, key => if k = key then some v else lookupField rest key

/-- JavaScript truthiness of a JSON value (arrays and objects are always
truthy; `null`, `false`, `0` and the empty string are falsy). -/
def jsTruthy : Json → Bool
  | Json.null => false
  | Json.bool b => b
  | Json.num n => n ≠ 0
  | Json.str s => s ≠ ""
  | Json.arr _ => true
  | Json.obj _ => true

/-- Truthiness of an optional string binding (`undefined` and `""` are falsy),
as tested by `if (x)` and `!x` in the handlers. -/
def jsTruthyStr : Option String → Bool
  | none => false
  | some s => s ≠ ""

/-- Embedding of `z.string()` on a required key: absent or non-string fails. -/
def zodString (fields : List (String × Json)) (key : String) : Except String String :=
  match lookupField fields key with
  | some (Json.str s) => Except.ok s
  | some _ => Except.error (key ++ ": Expected string")
  | none => Except.error (key ++ ": Required")

/-- Embedding of `z.string().optional()`: absent is fine, non-string fails. -/
def zodOptString (fields : List (String × Json)) (key : String) : Except String (Option String) :=
  match lookupField fields key with
  | some (Json.str s) => Except.ok (some s)
  | some _ => Except.error (key ++ ": Expected string")
  | none => Except.ok none

/-- Embedding of `z.number().optional()`. -/
def zodOptNumber (fields : List (String × Json)) (key : String) : Except String (Option Rat) :=
  match lookupField fields key with
  | some (Json.num n) => Except.ok (some n)
  | some _ => Except.error (key ++ ": Expected number")
  | none => Except.ok none

/-- Embedding of `z.boolean().optional()`. -/
def zodOptBool (fields : List (String × Json)) (key : String) : Except String (Option Bool) :=
  match lookupField fields key with
  | some (Json.bool b) => Except.ok (some b)
  | some _ => Except.error (key ++ ": Expected boolean")
  | none => Except.ok none

/-- Embedding of `z.enum([...])` on a required key. -/
def zodEnum (fields : List (String × Json)) (key : String) (allowed : List String) :
    Except String String :=
  match lookupField fields key with
  | some (Json.str s) =>
      if allowed.contains s then Except.ok s
      else Except.error (key ++ ": Invalid enum value")
  | some _ => Except.error (key ++ ": Expected string")
  | none => Except.error (key ++ ": Required")

/-- Embedding of `z.enum([...]).optional()`. -/
def zodOptEnum (fields : List (String × Json)) (key : String) (allowed : List String) :
    Except String (Option String) :=
  match lookupField fields key with
  | some (Json.str s) =>
      if allowed.contains s then Except.ok (some s)
      else Except.error (key ++ ": Invalid enum value")
  | some _ => Except.error (key ++ ": Expected string")
  | none => Except.ok none

/-- Embedding of `z.string().default(d)`: the default applies only when the
key is absent. -/
def zodStringDefault (fields : List (String × Json)) (key : String) (dflt : String) :
    Except String String :=
  match lookupField fields key with
  | some (Json.str s) => Except.ok s
  | some _ => Except.error (key ++ ": Expected string")
  | none => Except.ok dflt

/-- Geolocation object of `create_omi_conversation`
(`z.object \x7b latitude: z.number(), longitude: z.number() \x7d`). -/
structure Geolocation where
  latitude : Rat
  longitude : Rat
deriving DecidableEq

/-- Embedding of `z.number()` on a required key of a nested object. -/
def zodNumberIn (fields : List (String × Json)) (key : String) : Except String Rat :=
  match lookupField fields key with
  | some (Json.num n) => Except.ok n
  | some _ => Except.error (key ++ ": Expected number")
  | none => Except.error (key ++ ": Required")

/-- Embedding of the optional geolocation schema: if present it must be an
object carrying both `latitude` and `longitude` as numbers. -/
def zodOptGeolocation (fields : List (String × Json)) (key : String) :
    Except String (Option Geolocation) :=
  match lookupField fields key with
  | none => Except.ok none
  | some (Json.obj gfields) =>
      match zodNumberIn gfields "latitude" with
      | Except.error e => Except.error e
      | Except.ok lat =>
          match zodNumberIn gfields "longitude" with
          | Except.error e => Except.error e
          | Except.ok lon => Except.ok (some { latitude := lat, longitude := lon })
  | some _ => Except.error (key ++ ": Expected object")

/-- One entry of the `memories` array of `create_omi_memories`
(`z.object \x7b content: z.string(), tags: z.array(z.string()).optional() \x7d`). -/
structure MemorySpec where
  content : String
  tags : Option (List String)
deriving DecidableEq

/-- Embedding of `z.array(z.string())` over the raw element list. -/
def zodStringList : List Json → Except String (List String)
  | [] => Except.ok []
  | Json.str s :: rest =>
      match zodStringList rest with
      | Except.ok r => Except.ok (s :: r)
      | Except.error e => Except.error e
  | _ :: _ => Except.error "tags: Expected string"

/-- Embedding of the per-element memory object schema. -/
def zodMemorySpec : Json → Except String MemorySpec
  | Json.obj mfields =>
      match zodString mfields "content" with
      | Except.error e => Except.error e
      | Except.ok content =>
          match lookupField mfields "tags" with
          | none => Except.ok { content := content, tags := none }
          | some (Json.arr ts) =>
              match zodStringList ts with
              | Except.ok tags => Except.ok { content := content, tags := some tags }
              | Except.error e => Except.error e
          | some _ => Except.error "tags: Expected array"
  | _ => Except.error "memories: Expected object"

/-- Embedding of `z.array(memory object)` over the raw element list. -/
def zodMemoryList : List Json → Except String (List MemorySpec)
  | [] => Except.ok []
  | j :: rest =>
      match zodMemorySpec j with
      | Except.error e => Except.error e
      | Except.ok m =>
          match zodMemoryList rest with
          | Except.ok r => Except.ok (m :: r)
          | Except.error e => Except.error e

/-- Parsed arguments of the `read_omi_conversations` tool. -/
structure ReadConversationsArgs where
  user_id : String
  limit : Option Rat
  offset : Option Rat
  include_discarded : Option Bool
  statuses : Option String
deriving DecidableEq

/-- Zod validation of `read_omi_conversations` arguments
(schema at `src/index.ts:402-408`). -/
def read_omi_conversations_validate (fields : List (String × Json)) :
    Except String ReadConversationsArgs := do
  let user_id ← zodString fields "user_id"
  let limit ← zodOptNumber fields "limit"
  let offset ← zodOptNumber fields "offset"
  let include_discarded ← zodOptBool fields "include_discarded"
  let statuses ← zodOptString fields "statuses"
  Except.ok
    { user_id := user_id, limit := limit, offset := offset,
      include_discarded := include_discarded, statuses := statuses }

/-- Parsed arguments of the `read_omi_memories` tool. -/
structure ReadMemoriesArgs where
  user_id : String
  limit : Option Rat
  offset : Option Rat
deriving DecidableEq

/-- Zod validation of `read_omi_memories` arguments
(schema at `src/index.ts:479-483`). -/
def read_omi_memories_validate (fields : List (String × Json)) :
    Except String ReadMemoriesArgs := do
  let user_id ← zodString fields "user_id"
  let limit ← zodOptNumber fields "limit"
  let offset ← zodOptNumber fields "offset"
  Except.ok { user_id := user_id, limit := limit, offset := offset }

/-- Parsed arguments of the `create_omi_conversation` tool. -/
structure CreateConversationArgs where
  text : String
  user_id : String
  text_source : String
  started_at : Option String
  finished_at : Option String
  language : String
  geolocation : Option Geolocation
  text_source_spec : Option String
deriving DecidableEq

/-- Zod validation of `create_omi_conversation` arguments
(schema at `src/index.ts:555-571`; `language` defaults to `"en"`). -/
def create_omi_conversation_validate (fields : List (String × Json)) :
    Except String CreateConversationArgs := do
  let text ← zodString fields "text"
  let user_id ← zodString fields "user_id"
  let text_source ← zodEnum fields "text_source" ["audio_transcript", "message", "other_text"]
  let started_at ← zodOptString fields "started_at"
  let finished_at ← zodOptString fields "finished_at"
  let language ← zodStringDefault fields "language" "en"
  let geolocation ← zodOptGeolocation fields "geolocation"
  let text_source_spec ← zodOptString fields "text_source_spec"
  Except.ok
    { text := text, user_id := user_id, text_source := text_source,
      started_at := started_at, finished_at := finished_at, language := language,
      geolocation := geolocation, text_source_spec := text_source_spec }

/-- Parsed arguments of the `create_omi_memories` tool. -/
structure CreateMemoriesArgs where
  user_id : String
  text : Option String
  memories : Option (List MemorySpec)
  text_source : Option String
  text_source_spec : Option String
deriving DecidableEq

/-- Zod validation of `create_omi_memories` arguments
(schema at `src/index.ts:635-648`). -/
def create_omi_memories_validate (fields : List (String × Json)) :
    Except String CreateMemoriesArgs := do
  let user_id ← zodString fields "user_id"
  let text ← zodOptString fields "text"
  let memories ←
    match lookupField fields "memories" with
    | none => Except.ok none
    | some (Json.arr ms) =>
        match zodMemoryList ms with
        | Except.ok l => Except.ok (some l)
        | Except.error e => Except.error e
    | some _ => Except.error "memories: Expected array"
  let text_source ← zodOptEnum fields "text_source" ["email", "social_post", "other"]
  let text_source_spec ← zodOptString fields "text_source_spec"
  Except.ok
    { user_id := user_id, text := text, memories := memories,
      text_source := text_source, text_source_spec := text_source_spec }

/-! ## Request construction -/

/-- JavaScript `String(b)` on a boolean. -/
def jsBoolToString (b : Bool) : String := if b then "true" else "false"

/-- JavaScript `String(n)` on a number, restricted to the values the façade
ever stringifies (integers print without a fractional part). -/
def jsNumToString (q : Rat) : String :=
  if q.den = 1 then toString q.num else toString q

/-- Set of bytes the WHATWG `application/x-www-form-urlencoded` serializer
leaves unescaped: `*`, `-`, `.`, `_`, digits, upper- and lowercase letters. -/
def charCodeSafe (n : Nat) : Bool :=
  n = 42 || n = 45 || n = 46 || n = 95 ||
  (48 ≤ n && n ≤ 57) || (65 ≤ n && n ≤ 90) || (97 ≤ n && n ≤ 122)

/-- Uppercase hexadecimal digit for a value below 16. -/
def hexDigitChar (n : Nat) : Char :=
  if n < 10 then Char.ofNat (48 + n) else Char.ofNat (55 + n)

/-- Percent-encoding of one character by `URLSearchParams.toString()`:
safe characters pass through, a space becomes `+`, anything else becomes
`%` plus two hex digits (the model covers ASCII input, one byte per char). -/
def percentEncodeChar (c : Char) : List Char :=
  if charCodeSafe c.toNat then [c]
  else if c.toNat = 32 then ['+']
  else ['%', hexDigitChar (c.toNat / 16), hexDigitChar (c.toNat % 16)]

/-- Percent-encoding of a whole string (`URLSearchParams` serializer). -/
def formUrlEncode (s : String) : String :=
  String.mk (List.flatten (s.data.map percentEncodeChar))

/-- Serialization of an appended parameter list, as `URLSearchParams.toString()`
produces it: `k1=v1&k2=v2&...` with keys and values percent-encoded. -/
def searchParamsToString : List (String × String) → String
  | [] => ""
  | [(k, v)] => formUrlEncode k ++ "=" ++ formUrlEncode v
  | (k, v) :: rest =>
      formUrlEncode k ++ "=" ++ formUrlEncode v ++ "&" ++ searchParamsToString rest

/-- One conditionally-appended query parameter: the JS pattern
`if (typeof x === ...) params.append(k, String(x))`. -/
def optParam {α : Type} (k : String) (f : α → String) (o : Option α) : List (String × String) :=
  match o with
  | some x => [(k, f x)]
  | none => []

/-- The `statuses` parameter: appended only when present and non-empty
(`if (typeof statuses === 'string' && statuses.length > 0)`). -/
def statusesParam (o : Option String) : List (String × String) :=
  match o with
  | some s => if s.length > 0 then [("statuses", s)] else []
  | none => []

/-- One conditionally-included JSON body field gated on string truthiness:
the JS pattern `if (x) body.k = x` for a string `x`. -/
def optTruthyStrField (k : String) (o : Option String) : List (String × Json) :=
  match o with
  | some s => if s ≠ "" then [(k, Json.str s)] else []
  | none => []

/-- One conditionally-included JSON body field for an always-truthy value
(objects and arrays): the JS pattern `if (x) body.k = x`. -/
def optJsonField {α : Type} (k : String) (f : α → Json) (o : Option α) : List (String × Json) :=
  match o with
  | some x => [(k, f x)]
  | none => []

/-- Query parameters appended by the `read_omi_conversations` handler
(`src/index.ts:416-430`): `uid` always, the optional ones only when present;
`statuses` additionally only when non-empty. -/
def read_omi_conversations_params (a : ReadConversationsArgs) : List (String × String) :=
  [("uid", a.user_id)]
  ++ optParam "limit" jsNumToString a.limit
  ++ optParam "offset" jsNumToString a.offset
  ++ optParam "include_discarded" jsBoolToString a.include_discarded
  ++ statusesParam a.statuses

/-- Full GET URL of `read_omi_conversations` (`src/index.ts:415,432`). -/
def read_omi_conversations_url (appId : String) (a : ReadConversationsArgs) : String :=
  "https://api.omi.me/v2/integrations/" ++ appId ++ "/conversations?"
    ++ searchParamsToString (read_omi_conversations_params a)

/-- Query parameters appended by the `read_omi_memories` handler
(`src/index.ts:491-499`). -/
def read_omi_memories_params (a : ReadMemoriesArgs) : List (String × String) :=
  [("uid", a.user_id)]
  ++ optParam "limit" jsNumToString a.limit
  ++ optParam "offset" jsNumToString a.offset

/-- Full GET URL of `read_omi_memories` (`src/index.ts:490,501`). -/
def read_omi_memories_url (appId : String) (a : ReadMemoriesArgs) : String :=
  "https://api.omi.me/v2/integrations/" ++ appId ++ "/memories?"
    ++ searchParamsToString (read_omi_memories_params a)

/-- POST URL of `create_omi_conversation` (`src/index.ts:575`): the uid is
spliced into the template literal with no encoding. -/
def create_omi_conversation_url (appId : String) (user_id : String) : String :=
  "https://api.omi.me/v2/integrations/" ++ appId ++ "/user/conversations?uid=" ++ user_id

/-- POST URL of `create_omi_memories` (`src/index.ts:657`): the uid is
spliced into the template literal with no encoding. -/
def create_omi_memories_url (appId : String) (user_id : String) : String :=
  "https://api.omi.me/v2/integrations/" ++ appId ++ "/user/memories?uid=" ++ user_id

/-- JSON value of one validated memory object as serialized into the body
(zod keeps `content` and, when supplied, `tags`). -/
def memoryToJson (m : MemorySpec) : Json :=
  Json.obj
    ([("content", Json.str m.content)]
      ++ (match m.tags with
          | some ts => [("tags", Json.arr (ts.map Json.str))]
          | none => []))

/-- JSON value of a validated geolocation object. -/
def geolocationToJson (g : Geolocation) : Json :=
  Json.obj [("latitude", Json.num g.latitude), ("longitude", Json.num g.longitude)]

/-- JSON body built by the `create_omi_conversation` handler
(`src/index.ts:578-588`): `text`, `text_source`, `language` always; the
optional fields only when truthy (`if (started_at) body.started_at = ...`). -/
def create_omi_conversation_body (a : CreateConversationArgs) : List (String × Json) :=
  [("text", Json.str a.text), ("text_source", Json.str a.text_source),
    ("language", Json.str a.language)]
  ++ optTruthyStrField "started_at" a.started_at
  ++ optTruthyStrField "finished_at" a.finished_at
  ++ optJsonField "geolocation" geolocationToJson a.geolocation
  ++ optTruthyStrField "text_source_spec" a.text_source_spec

/-- Outbound POST request: the URL and the object serialized as the body. -/
structure PostRequest where
  url : String
  body : List (String × Json)

/-- Request construction of the `create_omi_memories` handler
(`src/index.ts:650-676`): the runtime check `if (!text && !memories) throw`
(an empty string counts as missing text, any array — even empty — counts as
present memories), then the body with only the truthy fields; the thrown
message is re-wrapped by the handler's catch block. -/
def create_omi_memories_run (appId : String) (a : CreateMemoriesArgs) :
    Except String PostRequest :=
  if !jsTruthyStr a.text && a.memories.isNone then
    Except.error "Failed to create memory: Either text or memories must be provided"
  else
    Except.ok
      { url := create_omi_memories_url appId a.user_id
      , body :=
          optTruthyStrField "text" a.text
          ++ optJsonField "memories" (fun ms => Json.arr (ms.map memoryToJson)) a.memories
          ++ optTruthyStrField "text_source" a.text_source
          ++ optTruthyStrField "text_source_spec" a.text_source_spec }

/-! ## Response mapping -/

/-- Outcome of the HTTP call as the handler observes it: the status line plus
the results of reading the body as text and as JSON (either read may fail). -/
structure HttpResponse where
  status : Nat
  statusText : String
  bodyText : Except String String
  jsonBody : Except String Json

/-- The Fetch API's `response.ok`: status in the 2xx range. -/
def respOk (r : HttpResponse) : Bool :=
  200 ≤ r.status && r.status ≤ 299

/-- JavaScript `v || []` applied to a possibly-absent object member
(`data.conversations || []`): absent or falsy gives the empty array. -/
def jsOrEmptyArray (v : Option Json) : Json :=
  match v with
  | none => Json.arr []
  | some j => if jsTruthy j then j else Json.arr []

/-- Member access `data.k` on a JSON value (absent on non-objects). -/
def getKey : Json → String → Option Json
  | Json.obj fields, k => lookupField fields k
  | _, _ => none

/-- Response mapping of `read_omi_conversations` (`src/index.ts:445-463`):
non-2xx throws with status, status text and body text; 2xx extracts
`data.conversations || []`; any thrown error (including a body-read or
JSON-parse failure) is re-wrapped by the catch block. -/
def read_omi_conversations_respond (resp : HttpResponse) : Except String Json :=
  if respOk resp then
    match resp.jsonBody with
    | Except.ok data =>
        Except.ok (Json.obj [("conversations", jsOrEmptyArray (getKey data "conversations"))])
    | Except.error e => Except.error ("Failed to read conversations: " ++ e)
  else
    match resp.bodyText with
    | Except.ok errorText =>
        Except.error ("Failed to read conversations: " ++ "Failed to fetch conversations: "
          ++ toString resp.status ++ " " ++ resp.statusText ++ " - " ++ errorText)
    | Except.error e => Except.error ("Failed to read conversations: " ++ e)

/-- Response mapping of `read_omi_memories` (`src/index.ts:514-532`). -/
def read_omi_memories_respond (resp : HttpResponse) : Except String Json :=
  if respOk resp then
    match resp.jsonBody with
    | Except.ok data =>
        Except.ok (Json.obj [("memories", jsOrEmptyArray (getKey data "memories"))])
    | Except.error e => Except.error ("Failed to read memories: " ++ e)
  else
    match resp.bodyText with
    | Except.ok errorText =>
        Except.error ("Failed to read memories: " ++ "Failed to fetch memories: "
          ++ toString resp.status ++ " " ++ resp.statusText ++ " - " ++ errorText)
    | Except.error e => Except.error ("Failed to read memories: " ++ e)

/-- Response mapping of `create_omi_memories` (`src/index.ts:678-691`):
2xx ignores the body and returns the empty object. -/
def create_omi_memories_respond (resp : HttpResponse) : Except String Json :=
  if respOk resp then
    Except.ok (Json.obj [])
  else
    match resp.bodyText with
    | Except.ok errorText =>
        Except.error ("Failed to create memory: " ++ "Failed to create memory: "
          ++ toString resp.status ++ " " ++ resp.statusText ++ " - " ++ errorText)
    | Except.error e => Except.error ("Failed to create memory: " ++ e)

/-! ## Query-string inspection helpers

These are spec-side tools (not embedded source code): a splitter that reads
a query string back the way `URLSearchParams` parsing does — components
separated by `&`, each split at its first `=` — plus the percent-decoder,
used to state what uid value a constructed URL actually carries. -/

/-- Split a character list on a separator (the separator is consumed). -/
def splitOnSep (sep : Char) : List Char → List (List Char)
  | [] => [[]]
  | c :: rest =>
      let r := splitOnSep sep rest
      if c = sep then [] :: r
      else
        match r with
        | [] => [[c]]
        | g :: gs => (c :: g) :: gs

/-- Split a query component at its first `=` into key and value. -/
def splitAtEq : List Char → List Char × List Char
  | [] => ([], [])
  | c :: rest =>
      if c = '=' then ([], rest)
      else
        let kv := splitAtEq rest
        (c :: kv.1, kv.2)

/-- Key/value components of a raw query string. -/
def parseQueryChars (q : List Char) : List (List Char × List Char) :=
  (splitOnSep '&' q).map splitAtEq

/-- Raw (undecoded) value of the first occurrence of a key in a query string. -/
def queryLookup (q : String) (key : String) : Option String :=
  ((parseQueryChars q.data).find? (fun p => p.1 = key.data)).map (fun p => String.mk p.2)

/-- Characters of a URL after its first `?` (its raw query-plus-fragment part). -/
def afterQuestionMark : List Char → List Char
  | [] => []
  | c :: rest => if c = '?' then rest else afterQuestionMark rest

/-- Query part of a URL as a string. -/
def urlQuery (url : String) : String :=
  String.mk (afterQuestionMark url.data)

/-- Value of a hexadecimal digit character (uppercase letters). -/
def hexVal (c : Char) : Nat :=
  if 48 ≤ c.toNat && c.toNat ≤ 57 then c.toNat - 48
  else if 65 ≤ c.toNat && c.toNat ≤ 70 then c.toNat - 55
  else 0

/-- Percent-decoding as `URLSearchParams` applies it to component values:
`+` becomes a space and `%HH` becomes the character with code `HH` (a
truncated trailing escape is kept literally). -/
def percentDecodeChars : List Char → List Char
  | [] => []
  | '%' :: h :: l :: rest => Char.ofNat (16 * hexVal h + hexVal l) :: percentDecodeChars rest
  | '+' :: rest => ' ' :: percentDecodeChars rest
  | c :: rest => c :: percentDecodeChars rest

/-! ## Helper lemmas -/

/-- Bind on `Except` steps through a success. -/
theorem exceptBind_ok {α β ε : Type} (x : α) (f : α → Except ε β) :
    (Except.ok x >>= f) = f x := rfl

/-- Bind on `Except` short-circuits an error. -/
theorem exceptBind_error {α β ε : Type} (e : ε) (f : α → Except ε β) :
    ((Except.error e : Except ε α) >>= f) = Except.error e := rfl

/-- A successful run of the `create_omi_conversation` validator determines the
outcome of every per-field sub-validator. -/
theorem create_conversation_validate_ok (fields : List (String × Json))
    (a : CreateConversationArgs)
    (h : create_omi_conversation_validate fields = Except.ok a) :
    zodString fields "text" = Except.ok a.text ∧
    zodString fields "user_id" = Except.ok a.user_id ∧
    zodEnum fields "text_source" ["audio_transcript", "message", "other_text"]
      = Except.ok a.text_source ∧
    zodOptString fields "started_at" = Except.ok a.started_at ∧
    zodOptString fields "finished_at" = Except.ok a.finished_at ∧
    zodStringDefault fields "language" "en" = Except.ok a.language ∧
    zodOptGeolocation fields "geolocation" = Except.ok a.geolocation ∧
    zodOptString fields "text_source_spec" = Except.ok a.text_source_spec := by
  unfold create_omi_conversation_validate at h
  cases h1 : zodString fields "text" with
  | error e => simp only [h1, exceptBind_error] at h; exact Except.noConfusion h
  | ok text =>
  simp only [h1, exceptBind_ok] at h
  cases h2 : zodString fields "user_id" with
  | error e => simp only [h2, exceptBind_error] at h; exact Except.noConfusion h
  | ok user_id =>
  simp only [h2, exceptBind_ok] at h
  cases h3 : zodEnum fields "text_source" ["audio_transcript", "message", "other_text"] with
  | error e => simp only [h3, exceptBind_error] at h; exact Except.noConfusion h
  | ok text_source =>
  simp only [h3, exceptBind_ok] at h
  cases h4 : zodOptString fields "started_at" with
  | error e => simp only [h4, exceptBind_error] at h; exact Except.noConfusion h
  | ok started_at =>
  simp only [h4, exceptBind_ok] at h
  cases h5 : zodOptString fields "finished_at" with
  | error e => simp only [h5, exceptBind_error] at h; exact Except.noConfusion h
  | ok finished_at =>
  simp only [h5, exceptBind_ok] at h
  cases h6 : zodStringDefault fields "language" "en" with
  | error e => simp only [h6, exceptBind_error] at h; exact Except.noConfusion h
  | ok language =>
  simp only [h6, exceptBind_ok] at h
  cases h7 : zodOptGeolocation fields "geolocation" with
  | error e => simp only [h7, exceptBind_error] at h; exact Except.noConfusion h
  | ok geolocation =>
  simp only [h7, exceptBind_ok] at h
  cases h8 : zodOptString fields "text_source_spec" with
  | error e => simp only [h8, exceptBind_error] at h; exact Except.noConfusion h
  | ok text_source_spec =>
  simp only [h8, exceptBind_ok] at h
  injection h with h9
  subst h9
  exact ⟨rfl, rfl, rfl, rfl, rfl, rfl, rfl, rfl⟩

/-- A geolocation object that lacks `latitude` or `longitude` makes the
geolocation sub-validator fail. -/
theorem zodOptGeolocation_partial_error (fields gfields : List (String × Json))
    (hg : lookupField fields "geolocation" = some (Json.obj gfields))
    (hmiss : lookupField gfields "latitude" = none ∨ lookupField gfields "longitude" = none) :
    ∃ e, zodOptGeolocation fields "geolocation" = Except.error e := by
  rcases hmiss with hlat | hlon
  · refine ⟨"latitude" ++ ": Required", ?_⟩
    simp only [zodOptGeolocation, hg]
    simp only [zodNumberIn, hlat]
  · cases h1 : zodNumberIn gfields "latitude" with
    | error e =>
      refine ⟨e, ?_⟩
      simp only [zodOptGeolocation, hg, h1]
    | ok lat =>
      refine ⟨"longitude" ++ ": Required", ?_⟩
      simp only [zodOptGeolocation, hg, h1]
      simp only [zodNumberIn, hlon]

/-- Characters are determined by their code points. -/
theorem char_toNat_injective (a b : Char) (h : a.toNat = b.toNat) : a = b := by
  have h2 := congrArg Char.ofNat h
  rwa [Char.ofNat_toNat, Char.ofNat_toNat] at h2

/-- The hex-digit table inverts correctly below 16. -/
theorem hexVal_hexDigitChar : ∀ n < 16, hexVal (hexDigitChar n) = n := by decide

/-- Unfolded numeric ranges of the urlencoded-safe character set. -/
theorem charCodeSafe_ranges (n : Nat) (h : charCodeSafe n = true) :
    n = 42 ∨ n = 45 ∨ n = 46 ∨ n = 95 ∨ (48 ≤ n ∧ n ≤ 57) ∨ (65 ≤ n ∧ n ≤ 90)
      ∨ (97 ≤ n ∧ n ≤ 122) := by
  simp only [charCodeSafe, Bool.or_eq_true, Bool.and_eq_true, decide_eq_true_eq] at h
  tauto

/-- Decoding a character that is neither `%` nor `+` just keeps it. -/
theorem percentDecodeChars_other (c : Char) (t : List Char)
    (h1 : ¬ c = '%') (h2 : ¬ c = '+') :
    percentDecodeChars (c :: t) = c :: percentDecodeChars t := by
  simp [percentDecodeChars, h1, h2]

/-- Decoding a `+` yields a space. -/
theorem percentDecodeChars_plus (t : List Char) :
    percentDecodeChars ('+' :: t) = ' ' :: percentDecodeChars t := rfl

/-- Decoding a full percent escape yields the encoded byte. -/
theorem percentDecodeChars_escape (h l : Char) (t : List Char) :
    percentDecodeChars ('%' :: h :: l :: t)
      = Char.ofNat (16 * hexVal h + hexVal l) :: percentDecodeChars t := rfl

/-- Decoding undoes the encoding of one ASCII character. -/
theorem percentDecode_encodeChar (c : Char) (hc : c.toNat < 128) (t : List Char) :
    percentDecodeChars (percentEncodeChar c ++ t) = c :: percentDecodeChars t := by
  by_cases hs : charCodeSafe c.toNat = true
  · have hranges := charCodeSafe_ranges _ hs
    have hp : ¬ c = '%' := by
      intro hEq
      rw [hEq] at hranges
      exact absurd hranges (by decide)
    have hplus : ¬ c = '+' := by
      intro hEq
      rw [hEq] at hranges
      exact absurd hranges (by decide)
    simp only [percentEncodeChar, if_pos hs, List.cons_append, List.nil_append,
      percentDecodeChars_other c t hp hplus]
  · by_cases hsp : c.toNat = 32
    · have hc32 : c = ' ' := char_toNat_injective c ' ' (by rw [hsp]; rfl)
      subst hc32
      rfl
    · have hdiv : c.toNat / 16 < 16 := Nat.div_lt_of_lt_mul (by omega)
      have hmod : c.toNat % 16 < 16 := Nat.mod_lt _ (by omega)
      simp only [percentEncodeChar, if_neg hs, if_neg hsp, List.cons_append, List.nil_append,
        percentDecodeChars_escape]
      rw [hexVal_hexDigitChar _ hdiv, hexVal_hexDigitChar _ hmod, Nat.div_add_mod,
        Char.ofNat_toNat]

/-- Decoding undoes the encoding of an ASCII character list. -/
theorem percentDecode_encode_list (l : List Char) (h : ∀ c ∈ l, c.toNat < 128) :
    percentDecodeChars (List.flatten (l.map percentEncodeChar)) = l := by
  induction l with
  | nil => rfl
  | cons c rest ih =>
    have hc : c.toNat < 128 := h c (List.mem_cons_self c rest)
    have hrest : ∀ d ∈ rest, d.toNat < 128 := fun d hd => h d (List.mem_cons_of_mem c hd)
    simp only [List.map_cons, List.flatten_cons, percentDecode_encodeChar c hc, ih hrest]

/-- Decoding undoes `formUrlEncode` on ASCII strings. -/
theorem percentDecode_formUrlEncode (s : String) (h : ∀ c ∈ s.data, c.toNat < 128) :
    percentDecodeChars (formUrlEncode s).data = s.data := by
  simp only [formUrlEncode]
  exact percentDecode_encode_list s.data h

/-- Every character the encoder emits for an ASCII input avoids the URL
metacharacters `&`, `=` and `#`. -/
theorem percentEncodeChar_avoids_meta (c : Char) (hc : c.toNat < 128) (d : Char)
    (hd : d ∈ percentEncodeChar c) :
    ¬ d = '&' ∧ ¬ d = '=' ∧ ¬ d = '#' := by
  have meta_of_codes : ∀ e : Char, e.toNat ≠ 38 → e.toNat ≠ 61 → e.toNat ≠ 35 →
      ¬ e = '&' ∧ ¬ e = '=' ∧ ¬ e = '#' := by
    intro e he1 he2 he3
    refine ⟨fun hEq => ?_, fun hEq => ?_, fun hEq => ?_⟩
    · rw [hEq] at he1; exact he1 rfl
    · rw [hEq] at he2; exact he2 rfl
    · rw [hEq] at he3; exact he3 rfl
  by_cases hs : charCodeSafe c.toNat = true
  · simp only [percentEncodeChar, if_pos hs, List.mem_singleton] at hd
    subst hd
    have hranges := charCodeSafe_ranges _ hs
    exact meta_of_codes d (by omega) (by omega) (by omega)
  · by_cases hsp : c.toNat = 32
    · simp only [percentEncodeChar, if_neg hs, if_pos hsp, List.mem_singleton] at hd
      subst hd
      exact ⟨by decide, by decide, by decide⟩
    · have hdiv : c.toNat / 16 < 16 := Nat.div_lt_of_lt_mul (by omega)
      have hmod : c.toNat % 16 < 16 := Nat.mod_lt _ (by omega)
      have hhex : ∀ n < 16, (hexDigitChar n).toNat ≠ 38 ∧ (hexDigitChar n).toNat ≠ 61
          ∧ (hexDigitChar n).toNat ≠ 35 := by decide
      simp only [percentEncodeChar, if_neg hs, if_neg hsp, List.mem_cons,
        List.mem_singleton, List.not_mem_nil, or_false] at hd
      rcases hd with hd | hd | hd
      · subst hd; exact ⟨by decide, by decide, by decide⟩
      · subst hd
        obtain ⟨a1, a2, a3⟩ := hhex _ hdiv
        exact meta_of_codes _ a1 a2 a3
      · subst hd
        obtain ⟨a1, a2, a3⟩ := hhex _ hmod
        exact meta_of_codes _ a1 a2 a3

/-! ## Claim C6: partial geolocation is rejected -/

/-- C6: for every create_conversation invocation whose `geolocation` parameter
is present but lacks `latitude` or `longitude`, zod validation fails with a
ValidationError, before the handler (and hence any network activity) runs. -/
theorem create_conversation_partial_geolocation_rejected
    (fields gfields : List (String × Json))
    (hg : lookupField fields "geolocation" = some (Json.obj gfields))
    (hmiss : lookupField gfields "latitude" = none ∨ lookupField gfields "longitude" = none) :
    ∃ e, create_omi_conversation_validate fields = Except.error e := by
  cases hv : create_omi_conversation_validate fields with
  | error e => exact ⟨e, rfl⟩
  | ok a =>
    exfalso
    obtain ⟨-, -, -, -, -, -, h7, -⟩ := create_conversation_validate_ok fields a hv
    obtain ⟨e, he⟩ := zodOptGeolocation_partial_error fields gfields hg hmiss
    rw [he] at h7
    exact Except.noConfusion h7

/-- Witness for C6: the spec's own example, `geolocation` with latitude 37.7
and no longitude, fails validation. -/
theorem create_conversation_partial_geolocation_rejected_witness :
    ∃ e, create_omi_conversation_validate
        [("text", Json.str "hello"), ("user_id", Json.str "u1"),
          ("text_source", Json.str "message"),
          ("geolocation", Json.obj [("latitude", Json.num (377 / 10))])]
      = Except.error e :=
  create_conversation_partial_geolocation_rejected _ _ rfl (Or.inr rfl)

/-! ## Claim C7: the language default -/

/-- C7: for every valid create_conversation invocation the outbound body
contains the `language` key; when the caller omitted `language`, zod applied
the default `"en"`, and when the caller supplied a string it is kept. -/
theorem create_conversation_language_default
    (fields : List (String × Json)) (a : CreateConversationArgs)
    (hok : create_omi_conversation_validate fields = Except.ok a) :
    ("language", Json.str a.language) ∈ create_omi_conversation_body a
    ∧ (lookupField fields "language" = none → a.language = "en")
    ∧ (∀ s, lookupField fields "language" = some (Json.str s) → a.language = s) := by
  obtain ⟨-, -, -, -, -, h6, -, -⟩ := create_conversation_validate_ok fields a hok
  refine ⟨by simp [create_omi_conversation_body], ?_, ?_⟩
  · intro habs
    unfold zodStringDefault at h6
    rw [habs] at h6
    injection h6 with h9
    exact h9.symm
  · intro s hs
    unfold zodStringDefault at h6
    rw [hs] at h6
    injection h6 with h9
    exact h9.symm

/-- Concrete argument object for the C7 witness: `language` omitted. -/
def langDefaultFields : List (String × Json) :=
  [("text", Json.str "hello"), ("user_id", Json.str "u1"), ("text_source", Json.str "message")]

/-- Parsed arguments the validator produces for `langDefaultFields`. -/
def langDefaultArgs : CreateConversationArgs where
  text := "hello"
  user_id := "u1"
  text_source := "message"
  started_at := none
  finished_at := none
  language := "en"
  geolocation := none
  text_source_spec := none

/-- Witness for C7: with `language` omitted, validation succeeds with
language `"en"` and the body carries `language = "en"`. -/
theorem create_conversation_language_default_witness :
    ("language", Json.str langDefaultArgs.language) ∈ create_omi_conversation_body langDefaultArgs
    ∧ langDefaultArgs.language = "en" := by
  obtain ⟨h1, h2, -⟩ := create_conversation_language_default langDefaultFields langDefaultArgs rfl
  exact ⟨h1, h2 rfl⟩

/-! ## Substring test (spec-side helper for message statements) -/

/-- Whether `needle` occurs at the head of `hay`. -/
def startsWithChars : List Char → List Char → Bool
  | _, [] => true
  | [], _ :: _ => false
  | a :: as, b :: bs => a = b && startsWithChars as bs

/-- Whether `needle` occurs anywhere inside `hay`. -/
def containsChars : List Char → List Char → Bool
  | [], needle => needle.isEmpty
  | c :: rest, needle => startsWithChars (c :: rest) needle || containsChars rest needle

/-! ## Claim C3: 2xx GET responses relay the array, absent key means empty -/

/-- C3: on a 2xx response with a well-formed JSON object body, the
read_conversations (resp. read_memories) result is the body's
`conversations` (resp. `memories`) array relayed unchanged and wrapped;
when the key is absent the result is the empty array, never an error. -/
theorem read_responses_relay_arrays (resp : HttpResponse) (fields : List (String × Json))
    (hok : respOk resp = true) (hjson : resp.jsonBody = Except.ok (Json.obj fields)) :
    (∀ cs, lookupField fields "conversations" = some (Json.arr cs) →
        read_omi_conversations_respond resp
          = Except.ok (Json.obj [("conversations", Json.arr cs)]))
    ∧ (lookupField fields "conversations" = none →
        read_omi_conversations_respond resp
          = Except.ok (Json.obj [("conversations", Json.arr [])]))
    ∧ (∀ ms, lookupField fields "memories" = some (Json.arr ms) →
        read_omi_memories_respond resp = Except.ok (Json.obj [("memories", Json.arr ms)]))
    ∧ (lookupField fields "memories" = none →
        read_omi_memories_respond resp = Except.ok (Json.obj [("memories", Json.arr [])])) := by
  refine ⟨fun cs hcs => ?_, fun habs => ?_, fun ms hms => ?_, fun habs => ?_⟩
  · simp [read_omi_conversations_respond, hok, hjson, getKey, hcs, jsOrEmptyArray, jsTruthy]
  · simp [read_omi_conversations_respond, hok, hjson, getKey, habs, jsOrEmptyArray]
  · simp [read_omi_memories_respond, hok, hjson, getKey, hms, jsOrEmptyArray, jsTruthy]
  · simp [read_omi_memories_respond, hok, hjson, getKey, habs, jsOrEmptyArray]

/-- Concrete 200 response whose JSON body has no `conversations` key. -/
def resp200noKey : HttpResponse where
  status := 200
  statusText := "OK"
  bodyText := Except.ok "irrelevant"
  jsonBody := Except.ok (Json.obj [("other", Json.num 1)])

/-- Witness for C3: a 200 response without the `conversations` key maps to
the empty wrapped array, not an error. -/
theorem read_responses_relay_arrays_witness :
    read_omi_conversations_respond resp200noKey
      = Except.ok (Json.obj [("conversations", Json.arr [])]) :=
  (read_responses_relay_arrays resp200noKey [("other", Json.num 1)] rfl rfl).2.1 rfl

/-! ## Claim C4 (corrected): non-2xx error messages -/

/-- Concrete 404 response whose body text cannot be read. -/
def resp404readFail : HttpResponse where
  status := 404
  statusText := "Not Found"
  bodyText := Except.error "stream error"
  jsonBody := Except.error "stream error"

/-- Counterexample to C4 as stated: when reading the body text of a non-2xx
response fails, the handler does not fall back to an empty body string — the
catch block wraps the read failure itself, and the resulting message embeds
neither the status code 404 nor the empty-body RemoteError text. -/
theorem remote_error_no_empty_fallback_counterexample :
    read_omi_conversations_respond resp404readFail
      = Except.error "Failed to read conversations: stream error"
    ∧ containsChars "Failed to read conversations: stream error".data "404".data = false
    ∧ read_omi_conversations_respond resp404readFail
      ≠ Except.error
          "Failed to read conversations: Failed to fetch conversations: 404 Not Found - " := by
  refine ⟨rfl, by decide, fun h => ?_⟩
  rw [show read_omi_conversations_respond resp404readFail
      = Except.error "Failed to read conversations: stream error" from rfl] at h
  injection h with h2
  exact absurd h2 (by decide)

/-- C4 (amended): on a non-2xx response whose body text reads successfully,
the operation fails with a message embedding the status code, the status text
and the body text; when reading the body text fails, the operation fails with
a message wrapping the read failure instead (no empty-string fallback). Shown
for the two handlers the claim cites, read_conversations and create_memories. -/
theorem remote_error_message_embeds_status (resp : HttpResponse)
    (hfail : respOk resp = false) :
    (∀ t, resp.bodyText = Except.ok t →
        read_omi_conversations_respond resp
          = Except.error ("Failed to read conversations: Failed to fetch conversations: "
              ++ toString resp.status ++ " " ++ resp.statusText ++ " - " ++ t))
    ∧ (∀ e, resp.bodyText = Except.error e →
        read_omi_conversations_respond resp
          = Except.error ("Failed to read conversations: " ++ e))
    ∧ (∀ t, resp.bodyText = Except.ok t →
        create_omi_memories_respond resp
          = Except.error ("Failed to create memory: Failed to create memory: "
              ++ toString resp.status ++ " " ++ resp.statusText ++ " - " ++ t))
    ∧ (∀ e, resp.bodyText = Except.error e →
        create_omi_memories_respond resp
          = Except.error ("Failed to create memory: " ++ e)) := by
  refine ⟨fun t ht => ?_, fun e he => ?_, fun t ht => ?_, fun e he => ?_⟩
  · simp [read_omi_conversations_respond, hfail, ht]
  · simp [read_omi_conversations_respond, hfail, he]
  · simp [create_omi_memories_respond, hfail, ht]
  · simp [create_omi_memories_respond, hfail, he]

/-- Concrete 404 response with readable body text `"not found"`. -/
def resp404notFound : HttpResponse where
  status := 404
  statusText := "Not Found"
  bodyText := Except.ok "not found"
  jsonBody := Except.error "unexpected"

/-- Witness for C4 (amended): the spec's example — a 404 with body
`"not found"` produces a message embedding both `404` and `not found`. -/
theorem remote_error_message_embeds_status_witness :
    read_omi_conversations_respond resp404notFound
      = Except.error
          "Failed to read conversations: Failed to fetch conversations: 404 Not Found - not found"
    ∧ containsChars
        "Failed to read conversations: Failed to fetch conversations: 404 Not Found - not found".data
        "404".data = true
    ∧ containsChars
        "Failed to read conversations: Failed to fetch conversations: 404 Not Found - not found".data
        "not found".data = true := by
  refine ⟨?_, by decide, by decide⟩
  have h := (remote_error_message_embeds_status resp404notFound rfl).1 "not found" rfl
  exact h

/-! ## Claim C8: limit 5 requests and relayed ordering -/

/-- C8: a read_memories invocation with limit 5 and offset 0 sends exactly
`uid`, `limit=5`, `offset=0`; and whenever the remote honours the limit (its
`memories` array has at most 5 entries — remote correctness is outside this
component), the relayed sequence equals the remote one, so it has length at
most 5 and preserves the remote ordering. -/
theorem read_memories_limit_five (a : ReadMemoriesArgs) (resp : HttpResponse)
    (fields : List (String × Json)) (ms : List Json)
    (hl : a.limit = some 5) (ho : a.offset = some 0)
    (hok : respOk resp = true) (hjson : resp.jsonBody = Except.ok (Json.obj fields))
    (hms : lookupField fields "memories" = some (Json.arr ms))
    (hhonor : ms.length ≤ 5) :
    read_omi_memories_params a = [("uid", a.user_id), ("limit", "5"), ("offset", "0")]
    ∧ ∃ out : List Json,
        read_omi_memories_respond resp = Except.ok (Json.obj [("memories", Json.arr out)])
        ∧ out = ms ∧ out.length ≤ 5 := by
  have h5 : jsNumToString 5 = "5" := by decide
  have h0 : jsNumToString 0 = "0" := by decide
  constructor
  · simp [read_omi_memories_params, hl, ho, h5, h0, optParam]
  · exact ⟨ms,
      by simp [read_omi_memories_respond, hok, hjson, getKey, hms, jsOrEmptyArray, jsTruthy],
      rfl, hhonor⟩

/-- Concrete arguments for the C8 witness: limit 5, offset 0. -/
def limitFiveArgs : ReadMemoriesArgs where
  user_id := "u1"
  limit := some 5
  offset := some 0

/-- Concrete 200 response carrying two memories. -/
def resp200twoMemories : HttpResponse where
  status := 200
  statusText := "OK"
  bodyText := Except.ok "irrelevant"
  jsonBody := Except.ok (Json.obj [("memories", Json.arr [Json.str "m1", Json.str "m2"])])

/-- Witness for C8 at concrete inputs. -/
theorem read_memories_limit_five_witness :
    read_omi_memories_params limitFiveArgs = [("uid", "u1"), ("limit", "5"), ("offset", "0")]
    ∧ ∃ out : List Json,
        read_omi_memories_respond resp200twoMemories
          = Except.ok (Json.obj [("memories", Json.arr out)])
        ∧ out = [Json.str "m1", Json.str "m2"] ∧ out.length ≤ 5 :=
  read_memories_limit_five limitFiveArgs resp200twoMemories
    [("memories", Json.arr [Json.str "m1", Json.str "m2"])]
    [Json.str "m1", Json.str "m2"] rfl rfl rfl rfl rfl (by decide)

/-! ## Claim C1 (corrected): the exactly-one rule for create_memories -/

/-- Concrete create_memories arguments supplying both `text` and `memories`. -/
def bothSuppliedArgs : CreateMemoriesArgs where
  user_id := "u1"
  text := some "x"
  memories := some [{ content := "y", tags := none }]
  text_source := none
  text_source_spec := none

/-- Raw argument object supplying both `text` and `memories`. -/
def bothSuppliedFields : List (String × Json) :=
  [("user_id", Json.str "u1"), ("text", Json.str "x"),
    ("memories", Json.arr [Json.obj [("content", Json.str "y")]])]

/-- Request the handler builds when both `text` and `memories` are supplied. -/
def bothSuppliedRequest : PostRequest where
  url := "https://api.omi.me/v2/integrations/app/user/memories?uid=u1"
  body := [("text", Json.str "x"), ("memories", Json.arr [Json.obj [("content", Json.str "y")]])]

/-- Counterexample to C1 as stated: supplying both `text = "x"` and
`memories = [\x7bcontent: "y"\x7d]` does NOT fail — zod validation passes and
the handler's runtime check passes, proceeding to request construction with
both fields in the body. -/
theorem create_memories_both_supplied_counterexample :
    create_omi_memories_validate bothSuppliedFields = Except.ok bothSuppliedArgs
    ∧ create_omi_memories_run "app" bothSuppliedArgs = Except.ok bothSuppliedRequest :=
  ⟨rfl, rfl⟩

/-- C1 (amended): the handler enforces at-least-one, not exactly-one.
Supplying neither `text` nor `memories` fails with an error naming both
fields; supplying exactly one (non-empty text, or any memories array)
proceeds to request construction; supplying both also proceeds, with the
memories array included in the body. -/
theorem create_memories_at_least_one_amended (appId : String) (a : CreateMemoriesArgs) :
    (a.text = none → a.memories = none →
        create_omi_memories_run appId a
          = Except.error "Failed to create memory: Either text or memories must be provided")
    ∧ (∀ t, a.text = some t → t ≠ "" → a.memories = none →
        ∃ r, create_omi_memories_run appId a = Except.ok r)
    ∧ (∀ ms, a.text = none → a.memories = some ms →
        ∃ r, create_omi_memories_run appId a = Except.ok r)
    ∧ (∀ t ms, a.text = some t → a.memories = some ms →
        ∃ r, create_omi_memories_run appId a = Except.ok r
          ∧ ("memories", Json.arr (ms.map memoryToJson)) ∈ r.body) := by
  refine ⟨fun h1 h2 => ?_, fun t h1 hne h2 => ?_, fun ms h1 h2 => ?_, fun t ms h1 h2 => ?_⟩
  · simp [create_omi_memories_run, jsTruthyStr, h1, h2]
  · have hc : (!jsTruthyStr a.text && a.memories.isNone) = false := by
      simp [jsTruthyStr, h1, hne]
    unfold create_omi_memories_run
    rw [hc]
    exact ⟨_, rfl⟩
  · have hc : (!jsTruthyStr a.text && a.memories.isNone) = false := by
      simp [h2]
    unfold create_omi_memories_run
    rw [hc]
    exact ⟨_, rfl⟩
  · have hc : (!jsTruthyStr a.text && a.memories.isNone) = false := by
      simp [h2]
    unfold create_omi_memories_run
    rw [hc]
    refine ⟨_, rfl, ?_⟩
    simp [h1, h2, optTruthyStrField, optJsonField]

/-- Witness for C1 (amended) at concrete inputs: neither supplied fails;
text-only and memories-only proceed. -/
theorem create_memories_at_least_one_amended_witness :
    create_omi_memories_run "app" ⟨"u1", none, none, none, none⟩
      = Except.error "Failed to create memory: Either text or memories must be provided"
    ∧ (∃ r, create_omi_memories_run "app" ⟨"u1", some "x", none, none, none⟩ = Except.ok r)
    ∧ (∃ r, create_omi_memories_run "app" ⟨"u1", none, some [], none, none⟩ = Except.ok r) :=
  ⟨(create_memories_at_least_one_amended "app" ⟨"u1", none, none, none, none⟩).1 rfl rfl,
    (create_memories_at_least_one_amended "app" ⟨"u1", some "x", none, none, none⟩).2.1 "x" rfl
      (by decide) rfl,
    (create_memories_at_least_one_amended "app" ⟨"u1", none, some [], none, none⟩).2.2.1 [] rfl rfl⟩

/-! ## Claim C2 (corrected): user_id validation on read_conversations -/

/-- Parsed arguments the validator yields for an empty-string user_id. -/
def emptyUidArgs : ReadConversationsArgs where
  user_id := ""
  limit := none
  offset := none
  include_discarded := none
  statuses := none

/-- Counterexample to C2 as stated: an empty-string `user_id` passes zod
validation (`z.string()` accepts `""`), and the handler proceeds to build
the query with `uid` equal to the empty string — no ValidationError occurs
before network activity. -/
theorem read_conversations_empty_uid_counterexample :
    read_omi_conversations_validate [("user_id", Json.str "")] = Except.ok emptyUidArgs
    ∧ read_omi_conversations_params emptyUidArgs = [("uid", "")] :=
  ⟨rfl, rfl⟩

/-- C2 (amended): an absent `user_id` fails zod validation (before the
handler and hence before any network activity), while an empty-string
`user_id` passes validation and the request is built with `uid` as the
empty string. -/
theorem read_conversations_uid_required_amended (fields : List (String × Json)) :
    (lookupField fields "user_id" = none →
        ∃ e, read_omi_conversations_validate fields = Except.error e)
    ∧ (∀ a, read_omi_conversations_validate fields = Except.ok a → a.user_id = "" →
        ("uid", "") ∈ read_omi_conversations_params a) := by
  constructor
  · intro habs
    refine ⟨"user_id" ++ ": Required", ?_⟩
    have hz : zodString fields "user_id" = Except.error ("user_id" ++ ": Required") := by
      unfold zodString
      rw [habs]
    unfold read_omi_conversations_validate
    rw [hz, exceptBind_error]
  · intro a hok hempty
    have hmem : ("uid", a.user_id) ∈ read_omi_conversations_params a := by
      simp [read_omi_conversations_params]
    rw [hempty] at hmem
    exact hmem

/-- Witness for C2 (amended): an argument object with no `user_id` fails
validation, and the empty-string case builds `uid` as the empty string. -/
theorem read_conversations_uid_required_amended_witness :
    (∃ e, read_omi_conversations_validate [("limit", Json.num 3)] = Except.error e)
    ∧ ("uid", "") ∈ read_omi_conversations_params emptyUidArgs :=
  ⟨(read_conversations_uid_required_amended [("limit", Json.num 3)]).1 rfl,
    (read_conversations_uid_required_amended [("user_id", Json.str "")]).2 emptyUidArgs rfl rfl⟩

/-! ## Claim C10: truthiness asymmetry of text and memories -/

/-- C10: in create_memories, the empty string and the empty array behave
asymmetrically. `text = ""` with `memories` absent counts as neither
supplied and fails; `text = ""` next to a present `memories` array passes
but the `text` key is dropped from the body; `memories = []` counts as
present, passes validation, and is sent as an empty array. -/
theorem create_memories_truthiness_asymmetry (appId uid : String) :
    (∀ tsrc tspec, create_omi_memories_run appId ⟨uid, some "", none, tsrc, tspec⟩
        = Except.error "Failed to create memory: Either text or memories must be provided")
    ∧ (∀ ms, ∃ r, create_omi_memories_run appId ⟨uid, some "", some ms, none, none⟩
        = Except.ok r
        ∧ "text" ∉ r.body.map Prod.fst
        ∧ ("memories", Json.arr (ms.map memoryToJson)) ∈ r.body)
    ∧ (create_omi_memories_validate [("user_id", Json.str uid), ("memories", Json.arr [])]
        = Except.ok ⟨uid, none, some [], none, none⟩)
    ∧ (∃ r, create_omi_memories_run appId ⟨uid, none, some [], none, none⟩ = Except.ok r
        ∧ ("memories", Json.arr []) ∈ r.body) := by
  refine ⟨fun tsrc tspec => ?_, fun ms => ?_, rfl, ?_⟩
  · simp [create_omi_memories_run, jsTruthyStr]
  · have hc : (!jsTruthyStr (some "") && (some ms).isNone) = false := by
      simp
    unfold create_omi_memories_run
    rw [hc]
    refine ⟨_, rfl, ?_, ?_⟩
    · simp [optTruthyStrField, optJsonField]
    · simp [optTruthyStrField, optJsonField]
  · have hc : (!jsTruthyStr (none : Option String) && (some ([] : List MemorySpec)).isNone)
        = false := by
      simp
    unfold create_omi_memories_run
    rw [hc]
    refine ⟨_, rfl, ?_⟩
    simp [optTruthyStrField, optJsonField]

/-! ## Claim C5: omitted optionals never appear; uid always sent -/

/-- Keys contributed by an `optParam` chunk. -/
theorem mem_fst_optParam {α : Type} (key k : String) (f : α → String) (o : Option α) :
    (key ∈ (optParam k f o).map Prod.fst) ↔ (key = k ∧ o.isSome = true) := by
  cases o <;> simp [optParam]

/-- Keys contributed by the statuses chunk. -/
theorem mem_fst_statusesParam (key : String) (o : Option String) :
    (key ∈ (statusesParam o).map Prod.fst)
      ↔ (key = "statuses" ∧ ∃ s, o = some s ∧ s.length > 0) := by
  cases o with
  | none => simp [statusesParam]
  | some s =>
    by_cases hs : s.length > 0
    · simp [statusesParam, hs]
    · simp [statusesParam, hs]

/-- Keys contributed by an `optTruthyStrField` chunk. -/
theorem mem_fst_optTruthyStrField (key k : String) (o : Option String) :
    (key ∈ (optTruthyStrField k o).map Prod.fst)
      ↔ (key = k ∧ ∃ s, o = some s ∧ s ≠ "") := by
  cases o with
  | none => simp [optTruthyStrField]
  | some s =>
    by_cases hs : s = ""
    · simp [optTruthyStrField, hs]
    · simp [optTruthyStrField, hs]

/-- Keys contributed by an `optJsonField` chunk. -/
theorem mem_fst_optJsonField {α : Type} (key k : String) (f : α → Json) (o : Option α) :
    (key ∈ (optJsonField k f o).map Prod.fst) ↔ (key = k ∧ o.isSome = true) := by
  cases o <;> simp [optJsonField]

/-- An `optParam` chunk for an absent option is empty. -/
theorem optParam_none {α : Type} (k : String) (f : α → String) : optParam k f none = [] := rfl

/-- The statuses chunk for an absent option is empty. -/
theorem statusesParam_none : statusesParam none = [] := rfl

/-- An `optTruthyStrField` chunk for an absent option is empty. -/
theorem optTruthyStrField_none (k : String) : optTruthyStrField k none = [] := rfl

/-- An `optJsonField` chunk for an absent option is empty. -/
theorem optJsonField_none {α : Type} (k : String) (f : α → Json) : optJsonField k f none = [] := rfl

/-- A pair keyed differently never sits in an `optParam` chunk. -/
theorem not_mem_optParam_ne {α : Type} {key k : String} (x : String) (f : α → String)
    (o : Option α) (hne : key ≠ k) : (key, x) ∉ optParam k f o := by
  cases o with
  | none => simp [optParam]
  | some v =>
    simp only [optParam, List.mem_singleton]
    intro hp
    exact hne (congrArg Prod.fst hp)

/-- A pair keyed differently never sits in the statuses chunk. -/
theorem not_mem_statusesParam_ne {key : String} (x : String) (o : Option String)
    (hne : key ≠ "statuses") : (key, x) ∉ statusesParam o := by
  cases o with
  | none => simp [statusesParam]
  | some s =>
    simp only [statusesParam]
    split
    · simp only [List.mem_singleton]
      intro hp
      exact hne (congrArg Prod.fst hp)
    · simp

/-- A pair keyed differently never sits in an `optTruthyStrField` chunk. -/
theorem not_mem_optTruthyStrField_ne {key k : String} (x : Json) (o : Option String)
    (hne : key ≠ k) : (key, x) ∉ optTruthyStrField k o := by
  cases o with
  | none => simp [optTruthyStrField]
  | some s =>
    simp only [optTruthyStrField]
    split
    · simp only [List.mem_singleton]
      intro hp
      exact hne (congrArg Prod.fst hp)
    · simp

/-- A pair keyed differently never sits in an `optJsonField` chunk. -/
theorem not_mem_optJsonField_ne {α : Type} {key k : String} (x : Json) (f : α → Json)
    (o : Option α) (hne : key ≠ k) : (key, x) ∉ optJsonField k f o := by
  cases o with
  | none => simp [optJsonField]
  | some v =>
    simp only [optJsonField, List.mem_singleton]
    intro hp
    exact hne (congrArg Prod.fst hp)

/-- C5: across the four operations, an optional parameter the caller omitted
never appears as a key of the constructed query string or JSON body, while
user_id is always sent as the query key `uid` (for the POST operations the
URL carries `?uid=` followed by the user_id). -/
theorem omitted_optionals_never_sent :
    (∀ a : ReadConversationsArgs,
        ("uid", a.user_id) ∈ read_omi_conversations_params a
        ∧ (a.limit = none → "limit" ∉ (read_omi_conversations_params a).map Prod.fst)
        ∧ (a.offset = none → "offset" ∉ (read_omi_conversations_params a).map Prod.fst)
        ∧ (a.include_discarded = none
            → "include_discarded" ∉ (read_omi_conversations_params a).map Prod.fst)
        ∧ (a.statuses = none → "statuses" ∉ (read_omi_conversations_params a).map Prod.fst))
    ∧ (∀ a : ReadMemoriesArgs,
        ("uid", a.user_id) ∈ read_omi_memories_params a
        ∧ (a.limit = none → "limit" ∉ (read_omi_memories_params a).map Prod.fst)
        ∧ (a.offset = none → "offset" ∉ (read_omi_memories_params a).map Prod.fst))
    ∧ (∀ appId : String, ∀ a : CreateConversationArgs,
        create_omi_conversation_url appId a.user_id
          = "https://api.omi.me/v2/integrations/" ++ appId ++ "/user/conversations?uid="
            ++ a.user_id
        ∧ (a.started_at = none → "started_at" ∉ (create_omi_conversation_body a).map Prod.fst)
        ∧ (a.finished_at = none → "finished_at" ∉ (create_omi_conversation_body a).map Prod.fst)
        ∧ (a.geolocation = none → "geolocation" ∉ (create_omi_conversation_body a).map Prod.fst)
        ∧ (a.text_source_spec = none
            → "text_source_spec" ∉ (create_omi_conversation_body a).map Prod.fst))
    ∧ (∀ appId : String, ∀ a : CreateMemoriesArgs, ∀ r : PostRequest,
        create_omi_memories_run appId a = Except.ok r →
        r.url = "https://api.omi.me/v2/integrations/" ++ appId ++ "/user/memories?uid="
          ++ a.user_id
        ∧ (a.text = none → "text" ∉ r.body.map Prod.fst)
        ∧ (a.memories = none → "memories" ∉ r.body.map Prod.fst)
        ∧ (a.text_source = none → "text_source" ∉ r.body.map Prod.fst)
        ∧ (a.text_source_spec = none → "text_source_spec" ∉ r.body.map Prod.fst)) := by
  refine ⟨fun a => ⟨?_, fun h => ?_, fun h => ?_, fun h => ?_, fun h => ?_⟩,
    fun a => ⟨?_, fun h => ?_, fun h => ?_⟩,
    fun appId a => ⟨rfl, fun h => ?_, fun h => ?_, fun h => ?_, fun h => ?_⟩,
    fun appId a r hok => ?_⟩
  · simp [read_omi_conversations_params]
  · simp [read_omi_conversations_params, h, optParam_none, not_mem_optParam_ne,
      not_mem_statusesParam_ne]
  · simp [read_omi_conversations_params, h, optParam_none, not_mem_optParam_ne,
      not_mem_statusesParam_ne]
  · simp [read_omi_conversations_params, h, optParam_none, not_mem_optParam_ne,
      not_mem_statusesParam_ne]
  · simp [read_omi_conversations_params, h, statusesParam_none, not_mem_optParam_ne]
  · simp [read_omi_memories_params]
  · simp [read_omi_memories_params, h, optParam_none, not_mem_optParam_ne]
  · simp [read_omi_memories_params, h, optParam_none, not_mem_optParam_ne]
  · simp [create_omi_conversation_body, h, optTruthyStrField_none,
      not_mem_optTruthyStrField_ne, not_mem_optJsonField_ne]
  · simp [create_omi_conversation_body, h, optTruthyStrField_none,
      not_mem_optTruthyStrField_ne, not_mem_optJsonField_ne]
  · simp [create_omi_conversation_body, h, optJsonField_none, not_mem_optTruthyStrField_ne]
  · simp [create_omi_conversation_body, h, optTruthyStrField_none,
      not_mem_optTruthyStrField_ne, not_mem_optJsonField_ne]
  · unfold create_omi_memories_run at hok
    split at hok
    · exact absurd hok (by simp)
    · injection hok with hr
      subst hr
      refine ⟨rfl, fun h => ?_, fun h => ?_, fun h => ?_, fun h => ?_⟩ <;>
        simp [h, optTruthyStrField_none, optJsonField_none, not_mem_optTruthyStrField_ne,
          not_mem_optJsonField_ne]

/-- Request built by create_omi_memories for a memories-only invocation. -/
def memoriesOnlyRequest : PostRequest where
  url := "https://api.omi.me/v2/integrations/app/user/memories?uid=u1"
  body := [("memories", Json.arr [])]

/-- Witness for C5 at concrete inputs: all-omitted optionals yield a query
with only `uid`, and an omitted `text` never reaches the body. -/
theorem omitted_optionals_never_sent_witness :
    ("uid", "u1") ∈ read_omi_conversations_params ⟨"u1", none, none, none, none⟩
    ∧ "limit" ∉ (read_omi_conversations_params ⟨"u1", none, none, none, none⟩).map Prod.fst
    ∧ "offset" ∉ (read_omi_memories_params ⟨"u1", none, none⟩).map Prod.fst
    ∧ "started_at" ∉ (create_omi_conversation_body langDefaultArgs).map Prod.fst
    ∧ "text" ∉ memoriesOnlyRequest.body.map Prod.fst := by
  refine ⟨(omitted_optionals_never_sent.1 ⟨"u1", none, none, none, none⟩).1,
    (omitted_optionals_never_sent.1 ⟨"u1", none, none, none, none⟩).2.1 rfl,
    (omitted_optionals_never_sent.2.1 ⟨"u1", none, none⟩).2.2 rfl,
    (omitted_optionals_never_sent.2.2.1 "app" langDefaultArgs).2.1 rfl,
    (omitted_optionals_never_sent.2.2.2 "app" ⟨"u1", none, some [], none, none⟩
      memoriesOnlyRequest rfl).2.1 rfl⟩

/-! ## Claim C9: POST splices uid raw, GET percent-encodes it -/

/-- The serialized query of a parameter list starting with `uid` begins with
`uid=` followed by the encoded uid, then either nothing or an `&`. -/
theorem searchParams_uid_head (uid : String) (rest : List (String × String)) :
    ∃ tail : List Char,
      (searchParamsToString (("uid", uid) :: rest)).data
        = ("uid=" ++ formUrlEncode uid).data ++ tail
      ∧ (tail = [] ∨ ∃ t2, tail = '&' :: t2) := by
  have hk : (formUrlEncode "uid").data = ['u', 'i', 'd'] := by decide
  have hd : ("uid=" : String).data = ['u', 'i', 'd', '='] := by decide
  have he : ("=" : String).data = ['='] := by decide
  have ha : ("&" : String).data = ['&'] := by decide
  cases rest with
  | nil =>
    refine ⟨[], ?_, Or.inl rfl⟩
    simp [searchParamsToString, String.data_append, hk, hd, he]
  | cons p ps =>
    refine ⟨'&' :: (searchParamsToString (p :: ps)).data, ?_, Or.inr ⟨_, rfl⟩⟩
    simp [searchParamsToString, String.data_append, hk, hd, he, ha]

/-- The encoder's output for an ASCII string never contains the URL
metacharacters `&`, `=` or `#`. -/
theorem formUrlEncode_avoids_meta (s : String) (h : ∀ c ∈ s.data, c.toNat < 128) :
    ∀ d ∈ (formUrlEncode s).data, ¬ d = '&' ∧ ¬ d = '=' ∧ ¬ d = '#' := by
  intro d hd
  simp only [formUrlEncode] at hd
  rw [List.mem_flatten] at hd
  obtain ⟨l, hl, hdl⟩ := hd
  rw [List.mem_map] at hl
  obtain ⟨c, hc, rfl⟩ := hl
  exact percentEncodeChar_avoids_meta c (h c hc) d hdl

/-- C9: the POST operations splice user_id into the URL raw, so a user_id
containing `&` yields a URL whose `uid` query component differs from the
supplied user_id (shown at the concrete uid `a&b`); the GET operations
instead put the percent-encoded user_id after `uid=` — the encoded value is
free of `&`, `=` and `#`, and percent-decoding recovers the supplied user_id
exactly (shown for ASCII user_ids, one byte per character). -/
theorem post_uid_raw_get_uid_encoded :
    (create_omi_memories_url "app" "a&b"
        = "https://api.omi.me/v2/integrations/app/user/memories?uid=a&b"
      ∧ queryLookup (urlQuery (create_omi_memories_url "app" "a&b")) "uid" = some "a"
      ∧ queryLookup (urlQuery (create_omi_memories_url "app" "a&b")) "uid" ≠ some "a&b"
      ∧ create_omi_conversation_url "app" "a&b"
        = "https://api.omi.me/v2/integrations/app/user/conversations?uid=a&b"
      ∧ queryLookup (urlQuery (create_omi_conversation_url "app" "a&b")) "uid" = some "a")
    ∧ (∀ a : ReadConversationsArgs, (∀ c ∈ a.user_id.data, c.toNat < 128) →
        ∃ tail : List Char,
          (searchParamsToString (read_omi_conversations_params a)).data
            = ("uid=" ++ formUrlEncode a.user_id).data ++ tail
          ∧ (tail = [] ∨ ∃ t2, tail = '&' :: t2)
          ∧ percentDecodeChars (formUrlEncode a.user_id).data = a.user_id.data
          ∧ ∀ d ∈ (formUrlEncode a.user_id).data, ¬ d = '&' ∧ ¬ d = '=' ∧ ¬ d = '#')
    ∧ (∀ a : ReadMemoriesArgs, (∀ c ∈ a.user_id.data, c.toNat < 128) →
        ∃ tail : List Char,
          (searchParamsToString (read_omi_memories_params a)).data
            = ("uid=" ++ formUrlEncode a.user_id).data ++ tail
          ∧ (tail = [] ∨ ∃ t2, tail = '&' :: t2)
          ∧ percentDecodeChars (formUrlEncode a.user_id).data = a.user_id.data) := by
  refine ⟨⟨by decide, by decide, by decide, by decide, by decide⟩, fun a hascii => ?_,
    fun a hascii => ?_⟩
  · have hparams : read_omi_conversations_params a
        = ("uid", a.user_id)
          :: (optParam "limit" jsNumToString a.limit ++ optParam "offset" jsNumToString a.offset
              ++ optParam "include_discarded" jsBoolToString a.include_discarded
              ++ statusesParam a.statuses) := rfl
    rw [hparams]
    obtain ⟨tail, h1, h2⟩ := searchParams_uid_head a.user_id _
    exact ⟨tail, h1, h2, percentDecode_formUrlEncode a.user_id hascii,
      formUrlEncode_avoids_meta a.user_id hascii⟩
  · have hparams : read_omi_memories_params a
        = ("uid", a.user_id)
          :: (optParam "limit" jsNumToString a.limit
              ++ optParam "offset" jsNumToString a.offset) := rfl
    rw [hparams]
    obtain ⟨tail, h1, h2⟩ := searchParams_uid_head a.user_id _
    exact ⟨tail, h1, h2, percentDecode_formUrlEncode a.user_id hascii⟩

/-- Witness for C9: at the uid `a&b` the GET query starts with the encoded
uid, which decodes back to `a&b`, while the POST URL's uid component is `a`. -/
theorem post_uid_raw_get_uid_encoded_witness :
    percentDecodeChars (formUrlEncode "a&b").data = "a&b".data
    ∧ queryLookup (urlQuery (create_omi_memories_url "app" "a&b")) "uid" = some "a" := by
  obtain ⟨tail, h1, h2, h3, h4⟩ :=
    post_uid_raw_get_uid_encoded.2.1 ⟨"a&b", none, none, none, none⟩ (by decide)
  exact ⟨h3, post_uid_raw_get_uid_encoded.1.2.1⟩

end OmiMcp
